import Mathlib

/-!
Verification of the notely infinite-canvas geometry engine.

The definitions below are a shallow embedding of the client-side geometry
code (src/client/src/utils/canvasGeometry.js, the pointer handlers of
src/client/src/components/ToolBar.jsx and the auto-layout engine of
src/client/src/components/AiPanel.jsx).  JavaScript numbers are modelled
as exact rationals, JS objects as structures with optional fields, and
the duck-typed string tags are kept as strings.
-/

namespace Notely

/-- The string tag used for arrow elements. -/
def arrowTag : String := "arrow"

/-- The string tag returned for a hit on an arrow's first endpoint. -/
def startTag : String := "start"

/-- The string tag returned for a hit on an arrow's second endpoint. -/
def endTag : String := "end"

/-- A 2D point with rational coordinates (models a JS `{x, y}` pair). -/
structure P2 where
  x : ℚ
  y : ℚ
deriving DecidableEq, Repr

/-- The camera: world-space focal point plus a zoom scalar. -/
structure Camera where
  x : ℚ
  y : ℚ
  zoom : ℚ
deriving DecidableEq, Repr

/-- `screenToWorld` from canvasGeometry.js: screen pixel to world point. -/
def screenToWorld (sx sy : ℚ) (camera : Camera) (viewportWidth viewportHeight : ℚ) : P2 :=
  { x := (sx - viewportWidth / 2) / camera.zoom + camera.x
  , y := (sy - viewportHeight / 2) / camera.zoom + camera.y }

/-- `worldToScreen` from canvasGeometry.js: world point to screen pixel. -/
def worldToScreen (wx wy : ℚ) (camera : Camera) (viewportWidth viewportHeight : ℚ) : P2 :=
  { x := (wx - camera.x) * camera.zoom + viewportWidth / 2
  , y := (wy - camera.y) * camera.zoom + viewportHeight / 2 }

/-- Zoom lower clamp used by the wheel handler in ToolBar.jsx (`MIN = 1e-6`). -/
def MIN_ZOOM : ℚ := 1 / 1000000

/-- Zoom upper clamp used by the wheel handler in ToolBar.jsx (`MAX = 1e6`). -/
def MAX_ZOOM : ℚ := 1000000

/-- The camera update performed by `handleWheel` in ToolBar.jsx: multiply or
divide the zoom by 1.1 according to the wheel direction, clamp it to
`[MIN_ZOOM, MAX_ZOOM]`, then shift `camera.x/y` by the world-space delta of
the cursor position so the world point under the cursor stays fixed. -/
def handleWheel (prev : Camera) (mouseX mouseY deltaY vw vh : ℚ) : Camera :=
  let zoomFactor : ℚ := 11 / 10
  let rawZoom := if deltaY < 0 then prev.zoom * zoomFactor else prev.zoom / zoomFactor
  let newZoom := max MIN_ZOOM (min rawZoom MAX_ZOOM)
  let beforeP := screenToWorld mouseX mouseY prev vw vh
  let afterP := screenToWorld mouseX mouseY { prev with zoom := newZoom } vw vh
  { x := prev.x + (beforeP.x - afterP.x)
  , y := prev.y + (beforeP.y - afterP.y)
  , zoom := newZoom }

/-- A board element.  The source keeps elements as duck-typed JS objects
sharing `{id, type, x, y, w, h}`; arrows also carry the endpoint fields
`x1, y1, x2, y2` (possibly absent on legacy data, hence optional), and the
AI-generated blocks carry `label`, `blockIndex`, `lane` and `role`. -/
structure Element where
  id : String
  type : String
  x : ℚ := 0
  y : ℚ := 0
  w : ℚ := 0
  h : ℚ := 0
  x1 : Option ℚ := none
  y1 : Option ℚ := none
  x2 : Option ℚ := none
  y2 : Option ℚ := none
  label : Option String := none
  blockIndex : Option ℚ := none
  lane : Option ℚ := none
  role : Option String := none
deriving DecidableEq, Repr

/-- The JS idiom `el.x1 ?? el.x` used throughout canvasGeometry.js. -/
def ex1 (el : Element) : ℚ := el.x1.getD el.x

/-- The JS idiom `el.y1 ?? el.y`. -/
def ey1 (el : Element) : ℚ := el.y1.getD el.y

/-- The JS idiom `el.x2 ?? el.x + el.w`. -/
def ex2 (el : Element) : ℚ := el.x2.getD (el.x + el.w)

/-- The JS idiom `el.y2 ?? el.y + el.h`. -/
def ey2 (el : Element) : ℚ := el.y2.getD (el.y + el.h)

/-- `pointToSegmentDist2` from canvasGeometry.js: squared distance from
`(px, py)` to the segment `(x1, y1)-(x2, y2)`, via projection clamped to
`[0, 1]`, falling back to point-to-point distance for a degenerate
zero-length segment. -/
def pointToSegmentDist2 (px py x1 y1 x2 y2 : ℚ) : ℚ :=
  let dx := x2 - x1
  let dy := y2 - y1
  let len2 := dx * dx + dy * dy
  if len2 = 0 then (px - x1) * (px - x1) + (py - y1) * (py - y1)
  else
    let t := max 0 (min 1 (((px - x1) * dx + (py - y1) * dy) / len2))
    let projX := x1 + t * dx
    let projY := y1 + t * dy
    (px - projX) * (px - projX) + (py - projY) * (py - projY)

/-- `hitTestElement` from canvasGeometry.js.  Arrows: fast reject through
the endpoint bounding box expanded by an 8-unit margin, then squared
point-to-segment distance against the squared margin.  Other elements:
axis-aligned containment in `[x, x+w] times [y, y+h]`. -/
def hitTestElement (el : Element) (wx wy : ℚ) : Bool :=
  if el.type = arrowTag then
    let margin : ℚ := 8
    let x1 := ex1 el
    let y1 := ey1 el
    let x2 := ex2 el
    let y2 := ey2 el
    let minX := min x1 x2 - margin
    let maxX := max x1 x2 + margin
    let minY := min y1 y2 - margin
    let maxY := max y1 y2 + margin
    if wx < minX ∨ wx > maxX ∨ wy < minY ∨ wy > maxY then false
    else decide (pointToSegmentDist2 wx wy x1 y1 x2 y2 ≤ margin * margin)
  else
    decide (wx ≥ el.x ∧ wx ≤ el.x + el.w ∧ wy ≥ el.y ∧ wy ≤ el.y + el.h)

/-- `getArrowEndpointHit` from canvasGeometry.js: which literal endpoint of
an arrow lies within `radius` of the world point, the start endpoint being
checked first. -/
def getArrowEndpointHit (el : Element) (wx wy : ℚ) (radius : ℚ := 12) : Option String :=
  let x1 := ex1 el
  let y1 := ey1 el
  let x2 := ex2 el
  let y2 := ey2 el
  let r2 := radius * radius
  if (wx - x1) * (wx - x1) + (wy - y1) * (wy - y1) ≤ r2 then some startTag
  else if (wx - x2) * (wx - x2) + (wy - y2) * (wy - y2) ≤ r2 then some endTag
  else none

/-- `isOnResizeHandle` from canvasGeometry.js: hit test on a disc of the
given radius around the bottom-right corner `(x+w, y+h)`. -/
def isOnResizeHandle (el : Element) (wx wy : ℚ) (radius : ℚ := 12) : Bool :=
  let hx := el.x + el.w
  let hy := el.y + el.h
  decide ((wx - hx) * (wx - hx) + (wy - hy) * (wy - hy) ≤ radius * radius)

/-- `withArrowBounds` from canvasGeometry.js: recompute `x, y, w, h` as the
axis-aligned bounding box of the two endpoints and materialise the endpoint
fields; non-arrow elements are returned unchanged. -/
def withArrowBounds (el : Element) : Element :=
  if el.type = arrowTag then
    let x1 := ex1 el
    let y1 := ey1 el
    let x2 := ex2 el
    let y2 := ey2 el
    { el with
      x := min x1 x2
      y := min y1 y2
      w := max x1 x2 - min x1 x2
      h := max y1 y2 - min y1 y2
      x1 := some x1
      y1 := some y1
      x2 := some x2
      y2 := some y2 }
  else el

/-- `getBoxSnapPoints` from canvasGeometry.js: the 9 canonical anchor
points of a rectangular element, in source order (center, the four
corners, then the four edge midpoints). -/
def getBoxSnapPoints (el : Element) : List P2 :=
  let x := el.x
  let y := el.y
  let w := el.w
  let h := el.h
  let cx := x + w / 2
  let cy := y + h / 2
  [⟨cx, cy⟩, ⟨x, y⟩, ⟨x + w, y⟩, ⟨x, y + h⟩, ⟨x + w, y + h⟩,
   ⟨cx, y⟩, ⟨cx, y + h⟩, ⟨x, cy⟩, ⟨x + w, cy⟩]

/-- Squared distance from the query point `(wx, wy)` to a snap point, as
computed inside `snapPointToBoxes`. -/
def dist2To (wx wy : ℚ) (p : P2) : ℚ :=
  (wx - p.x) * (wx - p.x) + (wy - p.y) * (wy - p.y)

/-- The candidate anchors scanned by `snapPointToBoxes`: every snap point
of every element other than `self` that is not an arrow, in element order
then point order (the double `forEach` of the source). -/
def snapCandidates (elements : List Element) (selfId : String) : List P2 :=
  (elements.filter fun el => decide (¬ el.id = selfId ∧ ¬ el.type = arrowTag)).flatMap
    getBoxSnapPoints

/-- The accumulator loop of `snapPointToBoxes`: `best` starts at `none`
with `bestDist2` at the squared threshold, and each candidate whose squared
distance is less than or equal to the running best replaces it. -/
def snapGo (wx wy : ℚ) : List P2 → Option P2 × ℚ → Option P2 × ℚ
  | [], acc => acc
  | p :: ps, (best, bestDist2) =>
      if dist2To wx wy p ≤ bestDist2 then snapGo wx wy ps (some p, dist2To wx wy p)
      else snapGo wx wy ps (best, bestDist2)

/-- `snapPointToBoxes` from canvasGeometry.js: nearest candidate anchor
within the threshold, else the unmodified input point. -/
def snapPointToBoxes (wx wy : ℚ) (elements : List Element) (selfId : String)
    (threshold : ℚ := 20) : P2 :=
  match snapGo wx wy (snapCandidates elements selfId) (none, threshold * threshold) with
  | (some best, _) => best
  | (none, _) => ⟨wx, wy⟩

/-- The hit-resolution scan shared by `handleClick` and `handlePointerDown`
in ToolBar.jsx: `elements.slice().reverse().find(el => hitTestElement(el,
wx, wy))`, i.e. the topmost (last in z-order) element whose hit test
succeeds. -/
def resolveHit (elements : List Element) (wx wy : ℚ) : Option Element :=
  elements.reverse.find? fun el => hitTestElement el wx wy

/-- The element update performed on pointer move while dragging an arrow
endpoint (ToolBar.jsx `handlePointerMove`): overwrite the dragged endpoint
with the (already snapped) point `(sxp, syp)` and renormalise the bounding
box; all other elements are untouched. -/
def dragArrowEndpointMove (elements : List Element) (id : String) (endpoint : String)
    (sxp syp : ℚ) : List Element :=
  elements.map fun el =>
    if ¬ el.id = id ∨ ¬ el.type = arrowTag then el
    else
      let x1 := ex1 el
      let y1 := ey1 el
      let x2 := ex2 el
      let y2 := ey2 el
      if endpoint = startTag then
        withArrowBounds { el with x1 := some sxp, y1 := some syp, x2 := some x2, y2 := some y2 }
      else
        withArrowBounds { el with x1 := some x1, y1 := some y1, x2 := some sxp, y2 := some syp }

/-- The composed endpoint-drag update of ToolBar.jsx: the raw pointer world
point is first snapped with `snapPointToBoxes` (threshold 20, self
excluded), then applied to the dragged endpoint. -/
def handleArrowEndpointMove (elements : List Element) (id : String) (endpoint : String)
    (wx wy : ℚ) : List Element :=
  let snapped := snapPointToBoxes wx wy elements id 20
  dragArrowEndpointMove elements id endpoint snapped.x snapped.y

/-- The element update performed on pointer move while dragging an arrow
body (ToolBar.jsx `handlePointerMove`, drag kind `arrow`): both recorded
endpoints translate by the pointer's world delta, and the bounding box is
renormalised through `withArrowBounds`. -/
def dragArrowBodyMove (elements : List Element) (id : String)
    (startWx startWy startX1 startY1 startX2 startY2 wx wy : ℚ) : List Element :=
  let dx := wx - startWx
  let dy := wy - startWy
  elements.map fun el =>
    if el.id = id then
      withArrowBounds { el with
        x1 := some (startX1 + dx)
        y1 := some (startY1 + dy)
        x2 := some (startX2 + dx)
        y2 := some (startY2 + dy) }
    else el

/-- Arrow creation from a placement template (ToolBar.jsx `handleClick`,
`key === "arrow"` branch): a horizontal arrow of width `w` (the JS
`w || 160` default is applied by the caller) centered at the click point,
with `x, y, w, h` computed as the endpoint bounding box inline. -/
def placeArrowTemplate (id : String) (wx wy templateW : ℚ) : Element :=
  let half := (if templateW = 0 then 160 else templateW) / 2
  let x1 := wx - half
  let y1 := wy
  let x2 := wx + half
  let y2 := wy
  { id := id
    type := arrowTag
    x := min x1 x2
    y := min y1 y2
    w := max x1 x2 - min x1 x2
    h := max y1 y2 - min y1 y2
    x1 := some x1
    y1 := some y1
    x2 := some x2
    y2 := some y2 }

/-- The arrow bounding-box invariant of the spec: for an arrow element,
`x, y, w, h` is exactly the axis-aligned bounding box of the endpoints.
Non-arrow elements satisfy it vacuously. -/
def arrowBoundsInv (el : Element) : Prop :=
  el.type = arrowTag →
    el.x = min (ex1 el) (ex2 el) ∧ el.y = min (ey1 el) (ey2 el) ∧
    el.w = |ex2 el - ex1 el| ∧ el.h = |ey2 el - ey1 el|

/-- The string tag for heading blocks. -/
def textTag : String := "text"

/-- The string tag for paragraph blocks. -/
def paragraphTag : String := "paragraph"

/-- The string tag for plain boxes. -/
def boxTag : String := "box"

/-- The string tag for latex blocks. -/
def latexTag : String := "latex"

/-- The orientation string for horizontal (row) layout. -/
def horizontalTag : String := "horizontal"

/-- The orientation string for vertical (column) layout. -/
def verticalTag : String := "vertical"

/-- The default label of a heading block. -/
def headingLabel : String := "Heading"

/-- The default label of a plain block. -/
def textLabel : String := "Text"

/-- The placeholder label of a paragraph block. -/
def paragraphPlaceholder : String := "Type your paragraph…"

/-- The default latex label. -/
def defaultLatexLabel : String := "$$x^2 + y^2$$"

/-- The default role of a generated block. -/
def normalTag : String := "normal"

/-- The empty string (the JS fallback for a non-string label). -/
def emptyStr : String := ""

/-- The operation tag for block creation. -/
def addBlockTag : String := "add_block"

/-- The operation tag for arrow creation. -/
def addArrowTag : String := "add_arrow"

/-- The drawing interaction mode. -/
def drawTag : String := "draw"

/-- The erasing interaction mode. -/
def eraseTag : String := "erase"

/-- The panning interaction mode. -/
def panTag : String := "pan"

/-- The stylus pointer type. -/
def penTag : String := "pen"

/-- `MIN_ARROW_GAP` from AiPanel.jsx: minimum arrow length and same-lane
block spacing. -/
def MIN_ARROW_GAP : ℚ := 100

/-- `SIDE_PADDING` from AiPanel.jsx. -/
def SIDE_PADDING : ℚ := 32

/-- One parsed generation operation (AiPanel.jsx).  `fromIdx`/`toIdx` model
the JS fields `from`/`to` (`from` is reserved in Lean); a `none` models a
missing or non-numeric field. -/
structure DrawOp where
  op : String
  label : Option String := none
  blockType : Option String := none
  lane : Option ℚ := none
  fromIdx : Option ℚ := none
  toIdx : Option ℚ := none
  role : Option String := none
deriving DecidableEq, Repr

/-- `estimateBlockSize` from AiPanel.jsx (lane version; the first version
is identical): width from character count, clamped to
`[140, max 140 (region.w * 0.8)]`, height from an estimated wrapped-line
count with type-dependent base height and line height. -/
def estimateBlockSize (label : Option String) (blockType : String) (region : Element) :
    ℚ × ℚ :=
  let trimmed := (label.getD emptyStr).trim
  let text :=
    if trimmed = emptyStr then (if blockType = textTag then headingLabel else textLabel)
    else trimmed
  let approxCharWidth : ℚ := 10
  let basePadding : ℚ := 32
  let minWidth : ℚ := 140
  let maxWidth := max minWidth (region.w * (4 / 5))
  let rawWidth := (text.length : ℚ) * approxCharWidth + basePadding
  let w := max minWidth (min maxWidth rawWidth)
  let charsPerLine : ℤ := max 12 ⌊w / approxCharWidth⌋
  let lines : ℤ := max 1 ⌈(text.length : ℚ) / (charsPerLine : ℚ)⌉
  let lineHeight : ℚ := if blockType = textTag then 28 else 22
  let baseHeight : ℚ := if blockType = textTag then 40 else 32
  (w, baseHeight + ((lines : ℚ) - 1) * lineHeight)

/-- The lane assigned to a block operation in `layoutBlocksInRegion` (lane
version): `op.lane` when it is an integer in `[0, 16]`, else `0`. -/
def laneOf (op : DrawOp) : ℚ :=
  match op.lane with
  | some q => if q.den = 1 ∧ 0 ≤ q ∧ q ≤ 16 then q else 0
  | none => 0

/-- A block operation prepared for layout: its position in the input list,
resolved block type, lane and estimated size. -/
structure Prep where
  index : ℕ
  op : DrawOp
  blockType : String
  lane : ℚ
  w : ℚ
  h : ℚ
deriving DecidableEq, Repr

/-- The preparation pass of `layoutBlocksInRegion`: resolve each block
operation's type (`"text"` or `"paragraph"`), estimated size and lane. -/
def prepareBlocks (blockOps : List DrawOp) (region : Element) : List Prep :=
  blockOps.enum.map fun ip =>
    let blockType := if ip.2.blockType = some textTag then textTag else paragraphTag
    let wh := estimateBlockSize ip.2.label blockType region
    { index := ip.1
      op := ip.2
      blockType := blockType
      lane := laneOf ip.2
      w := wh.1
      h := wh.2 }

/-- A layout placement produced by `layoutBlocksInRegion`. -/
structure Placement where
  index : ℕ
  op : DrawOp
  blockType : String
  lane : ℚ
  x : ℚ
  y : ℚ
  w : ℚ
  h : ℚ
deriving DecidableEq, Repr

/-- The ascending list of lane keys present among the prepared blocks
(the source sorts the JS Map's keys numerically; since every lane is an
integer clamped to `[0, 16]`, this is the ascending enumeration of the
occupied lanes). -/
def laneKeys (prepared : List Prep) : List ℚ :=
  (List.map (fun k : ℕ => (k : ℚ)) (List.range 17)).filter fun k =>
    prepared.any fun b => decide (b.lane = k)

/-- Placement of one lane's blocks in a horizontal (row) layout: the
cursor starts at `x` and advances by `w + MIN_ARROW_GAP` after each block;
each block is vertically centered on the lane's center line. -/
def placeLaneH : List Prep → ℚ → ℚ → List Placement
  | [], _, _ => []
  | b :: bs, x, centerY =>
      { index := b.index
        op := b.op
        blockType := b.blockType
        lane := b.lane
        x := x
        y := centerY - b.h / 2
        w := b.w
        h := b.h }
        :: placeLaneH bs (x + b.w + MIN_ARROW_GAP) centerY

/-- Placement of one lane's blocks in a vertical (column) layout. -/
def placeLaneV : List Prep → ℚ → ℚ → List Placement
  | [], _, _ => []
  | b :: bs, y, centerX =>
      { index := b.index
        op := b.op
        blockType := b.blockType
        lane := b.lane
        x := centerX - b.w / 2
        y := y
        w := b.w
        h := b.h }
        :: placeLaneV bs (y + b.h + MIN_ARROW_GAP) centerX

/-- `layoutBlocksInRegion` from AiPanel.jsx (lane version): group blocks by
lane, choose one global orientation from the region's inner aspect ratio,
and place each lane's blocks consecutively along the primary axis with
`MIN_ARROW_GAP` spacing, lanes being evenly offset along the perpendicular
axis. -/
def layoutBlocksInRegion (blockOps : List DrawOp) (region : Element) :
    List Placement × String :=
  if blockOps.isEmpty then ([], horizontalTag)
  else
    let innerWidth := region.w - SIDE_PADDING * 2
    let innerHeight := region.h - SIDE_PADDING * 2
    let prepared := prepareBlocks blockOps region
    let keys := laneKeys prepared
    let aspect := innerWidth / max 1 innerHeight
    if aspect ≥ 1 then
      let startX := region.x + SIDE_PADDING
      let top := region.y + SIDE_PADDING
      let availableHeight := max 1 innerHeight
      let laneGapY :=
        if 1 < keys.length then availableHeight / ((keys.length : ℚ) - 1) else 0
      (keys.enum.flatMap fun ik =>
        placeLaneH (prepared.filter fun b => decide (b.lane = ik.2)) startX
          (top + laneGapY * (ik.1 : ℚ)), horizontalTag)
    else
      let startY := region.y + SIDE_PADDING
      let left := region.x + SIDE_PADDING
      let availableWidth := max 1 innerWidth
      let laneGapX :=
        if 1 < keys.length then availableWidth / ((keys.length : ℚ) - 1) else 0
      (keys.enum.flatMap fun ik =>
        placeLaneV (prepared.filter fun b => decide (b.lane = ik.2)) startY
          (left + laneGapX * (ik.1 : ℚ)), verticalTag)

/-- `getCorners` from AiPanel.jsx (lane version): the four corners of a
block, in source order (tl, tr, bl, br). -/
def getCorners (el : Element) : List P2 :=
  [⟨el.x, el.y⟩, ⟨el.x + el.w, el.y⟩, ⟨el.x, el.y + el.h⟩, ⟨el.x + el.w, el.y + el.h⟩]

/-- The nearest-corner-pair search of the cross-lane branch of
`buildArrowElement`: the running best starts at the first corner of each
block with an infinite best distance (modelled by `none`), and a pair
strictly closer than the running best replaces it. -/
def cornerPairFold : List (P2 × P2) → P2 × P2 × Option ℚ → P2 × P2 × Option ℚ
  | [], acc => acc
  | (fc, tc) :: rest, acc =>
      let d2 := (fc.x - tc.x) * (fc.x - tc.x) + (fc.y - tc.y) * (fc.y - tc.y)
      let better :=
        match acc.2.2 with
        | none => true
        | some b => decide (d2 < b)
      if better then cornerPairFold rest (fc, tc, some d2)
      else cornerPairFold rest acc

/-- `buildArrowElement` from AiPanel.jsx (lane version).  Same-lane pairs:
the arrow runs along the layout axis, 16 units past the source's trailing
edge to 16 units before the target's leading edge, centered on the mean of
the two block centers on the perpendicular axis.  Cross-lane pairs: the
closest pair of corners.  The `id` is randomly generated in the source and
passed in here. -/
def buildArrowElement (id : String) (fromEl toEl : Element) (orientation : String) :
    Element :=
  let fromMidX := fromEl.x + fromEl.w / 2
  let fromMidY := fromEl.y + fromEl.h / 2
  let toMidX := toEl.x + toEl.w / 2
  let toMidY := toEl.y + toEl.h / 2
  let sameLane : Bool :=
    match fromEl.lane, toEl.lane with
    | some a, some b => decide (a = b)
    | _, _ => false
  let ep : ℚ × ℚ × ℚ × ℚ :=
    if sameLane then
      if orientation = horizontalTag then
        let fromRight := fromEl.x + fromEl.w
        let toLeft := toEl.x
        let midY := (fromMidY + toMidY) / 2
        (fromRight + 16, midY, toLeft - 16, midY)
      else
        let fromBottom := fromEl.y + fromEl.h
        let toTop := toEl.y
        let midX := (fromMidX + toMidX) / 2
        (midX, fromBottom + 16, midX, toTop - 16)
    else
      let pairs := (getCorners fromEl).flatMap fun fc =>
        (getCorners toEl).map fun tc => (fc, tc)
      let best := cornerPairFold pairs (⟨fromEl.x, fromEl.y⟩, ⟨toEl.x, toEl.y⟩, none)
      (best.1.x, best.1.y, best.2.1.x, best.2.1.y)
  let x1 := ep.1
  let y1 := ep.2.1
  let x2 := ep.2.2.1
  let y2 := ep.2.2.2
  { id := id
    type := arrowTag
    x := min x1 x2
    y := min y1 y2
    w := max x1 x2 - min x1 x2
    h := max y1 y2 - min y1 y2
    x1 := some x1
    y1 := some y1
    x2 := some x2
    y2 := some y2 }

/-- `buildArrowElement` from the first (non-lane) version of AiPanel.jsx:
the arrow runs between facing edges 8 units off each block, and when its
length is below `MIN_ARROW_GAP` the endpoints are pulled apart
symmetrically to reach it. -/
def buildArrowElementV1 (id : String) (fromEl toEl : Element) (orientation : String) :
    Element :=
  let fromCx := fromEl.x + fromEl.w / 2
  let fromCy := fromEl.y + fromEl.h / 2
  let toCx := toEl.x + toEl.w / 2
  let toCy := toEl.y + toEl.h / 2
  if orientation = verticalTag then
    let dir : ℚ := if toCy ≥ fromCy then 1 else -1
    let centerX := (fromCx + toCx) / 2
    let rawStartY := if dir > 0 then fromEl.y + fromEl.h else fromEl.y
    let rawEndY := if dir > 0 then toEl.y else toEl.y + toEl.h
    let y1a := rawStartY + dir * 8
    let y2a := rawEndY - dir * 8
    let len := |y2a - y1a|
    let extra := (MIN_ARROW_GAP - len) / 2
    let y1 := if len < MIN_ARROW_GAP then y1a - dir * extra else y1a
    let y2 := if len < MIN_ARROW_GAP then y2a + dir * extra else y2a
    let x1 := centerX
    let x2 := centerX
    { id := id
      type := arrowTag
      x := min x1 x2
      y := min y1 y2
      w := max x1 x2 - min x1 x2
      h := max y1 y2 - min y1 y2
      x1 := some x1
      y1 := some y1
      x2 := some x2
      y2 := some y2 }
  else
    let dir : ℚ := if toCx ≥ fromCx then 1 else -1
    let centerY := (fromCy + toCy) / 2
    let rawStartX := if dir > 0 then fromEl.x + fromEl.w else fromEl.x
    let rawEndX := if dir > 0 then toEl.x else toEl.x + toEl.w
    let x1a := rawStartX + dir * 8
    let x2a := rawEndX - dir * 8
    let len := |x2a - x1a|
    let extra := (MIN_ARROW_GAP - len) / 2
    let x1 := if len < MIN_ARROW_GAP then x1a - dir * extra else x1a
    let x2 := if len < MIN_ARROW_GAP then x2a + dir * extra else x2a
    let y1 := centerY
    let y2 := centerY
    { id := id
      type := arrowTag
      x := min x1 x2
      y := min y1 y2
      w := max x1 x2 - min x1 x2
      h := max y1 y2 - min y1 y2
      x1 := some x1
      y1 := some y1
      x2 := some x2
      y2 := some y2 }

/-- The element type chosen for a placed block in `handleGenerate`. -/
def blockTypeToElementType (blockType : String) : String :=
  if blockType = textTag then textTag
  else if blockType = paragraphTag then paragraphTag
  else boxTag

/-- The label defaulting of `handleGenerate`: trimmed label when nonempty,
else a type-dependent default. -/
def blockLabel (op : DrawOp) (type : String) : String :=
  let l := (op.label.getD emptyStr).trim
  if ¬ l = emptyStr then l
  else if type = latexTag then defaultLatexLabel
  else if type = textTag then headingLabel
  else if type = paragraphTag then paragraphPlaceholder
  else textLabel

/-- The block elements built from the layout placements in `handleGenerate`
(lane version).  Element ids are randomly generated in the source and
irrelevant to every verified property; they are modelled as the empty
string. -/
def blockElementsFromPlaced (placed : List Placement) : List Element :=
  placed.map fun p =>
    let type := blockTypeToElementType p.blockType
    let role :=
      match p.op.role with
      | some s => s.toLower
      | none => normalTag
    { id := emptyStr
      blockIndex := some (p.index : ℚ)
      type := type
      x := p.x
      y := p.y
      w := p.w
      h := p.h
      label := some (blockLabel p.op type)
      lane := some p.lane
      role := some role }

/-- `findBlockByIndex` from `handleGenerate`: the first generated block
element whose `blockIndex` equals the numeric index. -/
def findBlockByIndex (blocks : List Element) (idx : ℚ) : Option Element :=
  blocks.find? fun el => decide (el.blockIndex = some idx)

/-- Resolution of a single `add_arrow` operation in `handleGenerate`:
`none` when `from`/`to` is not a number or references no placed block,
otherwise the built arrow element. -/
def resolveArrowOp (blocks : List Element) (orientation : String) (op : DrawOp) :
    Option Element :=
  match op.fromIdx, op.toIdx with
  | some f, some t =>
      match findBlockByIndex blocks f, findBlockByIndex blocks t with
      | some a, some b => some (buildArrowElement emptyStr a b orientation)
      | _, _ => none
  | _, _ => none

/-- The arrow resolution pass of `handleGenerate`: map each `add_arrow`
operation through `resolveArrowOp` and drop the `null`s
(`.map(...).filter(Boolean)`). -/
def resolveArrows (arrowOps : List DrawOp) (blocks : List Element)
    (orientation : String) : List Element :=
  arrowOps.filterMap (resolveArrowOp blocks orientation)

/-- The element-producing pipeline of `handleGenerate` (lane version):
split the operations by tag, lay out the blocks inside the AI region,
build the block elements, then resolve the arrows against them. -/
def handleGenerateElements (operations : List DrawOp) (aiRegion : Element) :
    List Element × List Element :=
  let blockOps := operations.filter fun op => decide (op.op = addBlockTag)
  let arrowOps := operations.filter fun op => decide (op.op = addArrowTag)
  let pr := layoutBlocksInRegion blockOps aiRegion
  let blocks := blockElementsFromPlaced pr.1
  (blocks, resolveArrows arrowOps blocks pr.2)

/-- The drag ref of ToolBar.jsx: either a box drag (recorded pointer offset
from the element origin) or an arrow body drag (recorded initial endpoints
and initial pointer world position). -/
inductive DragState
  | box (id : String) (offsetX offsetY : ℚ)
  | arrow (id : String) (startWx startWy startX1 startY1 startX2 startY2 : ℚ)
deriving DecidableEq, Repr

/-- The resize ref of ToolBar.jsx. -/
structure ResizeState where
  id : String
  startWx : ℚ
  startWy : ℚ
  startW : ℚ
  startH : ℚ
deriving DecidableEq, Repr

/-- The arrow-endpoint drag ref of ToolBar.jsx. -/
structure EndpointState where
  id : String
  endpoint : String
deriving DecidableEq, Repr

/-- The mutable interaction refs and selection state of ToolBar.jsx,
gathered into one record.  The element/stroke collections and the camera
are external state and are passed to the handlers separately. -/
structure InteractionState where
  isPanning : Bool := false
  isDrawing : Bool := false
  isErasing : Bool := false
  currentStrokeId : Option String := none
  dragState : Option DragState := none
  resizeState : Option ResizeState := none
  arrowEndpointState : Option EndpointState := none
  selectedId : Option String := none
  panStart : Option P2 := none
  cameraStart : Option Camera := none
deriving DecidableEq, Repr

/-- The initial interaction state: everything idle. -/
def initState : InteractionState := {}

/-- The selected-arrow endpoint-handle check of `handlePointerDown`: when
the selected element is an arrow, test its endpoint handles on the
renormalised arrow. -/
def pointerDownEndpointHit (selected : Option Element) (wx wy : ℚ) :
    Option EndpointState :=
  match selected with
  | some sel =>
      if sel.type = arrowTag then
        let el := withArrowBounds sel
        match getArrowEndpointHit el wx wy with
        | some ep => some { id := el.id, endpoint := ep }
        | none => none
      else none
  | none => none

/-- The selected-element resize-handle check of `handlePointerDown`: when
the selected element is not an arrow, test its bottom-right resize
handle. -/
def pointerDownResizeHit (selected : Option Element) (wx wy : ℚ) :
    Option ResizeState :=
  match selected with
  | some sel =>
      if (¬ sel.type = arrowTag) ∧ isOnResizeHandle sel wx wy = true then
        some { id := sel.id
               startWx := wx
               startWy := wy
               startW := sel.w
               startH := sel.h }
      else none
  | none => none

/-- The ref/selection effect of `handlePointerDown` in ToolBar.jsx, with
the same branch order as the source: drawing (draw mode or stylus), then
erasing, then — in pan mode — selected-arrow endpoint handles, selected
non-arrow resize handle, top-down element hit (drag + select), and finally
panning.  `newStrokeId` stands for the randomly generated stroke id, and
`clientX/clientY` for the raw pointer coordinates recorded by the pan
snapshot. -/
def handlePointerDown (mode pointerType : String) (elements : List Element)
    (wx wy : ℚ) (newStrokeId : String) (camera : Camera) (clientX clientY : ℚ)
    (s : InteractionState) : InteractionState :=
  if mode = drawTag ∨ pointerType = penTag then
    { s with
      selectedId := none
      currentStrokeId := some newStrokeId
      isDrawing := true
      isErasing := false
      isPanning := false
      resizeState := none
      dragState := none
      arrowEndpointState := none }
  else if mode = eraseTag then
    { s with
      isErasing := true
      isDrawing := false
      isPanning := false
      resizeState := none
      dragState := none
      arrowEndpointState := none }
  else if mode = panTag then
    let selected := elements.find? fun el => decide (s.selectedId = some el.id)
    match pointerDownEndpointHit selected wx wy with
    | some st =>
        { s with
          arrowEndpointState := some st
          isPanning := false
          dragState := none
          resizeState := none
          isDrawing := false
          isErasing := false }
    | none =>
        match pointerDownResizeHit selected wx wy with
        | some st =>
            { s with
              resizeState := some st
              isPanning := false
              isDrawing := false
              isErasing := false
              dragState := none
              arrowEndpointState := none }
        | none =>
            match resolveHit elements wx wy with
            | some hit =>
                let ds :=
                  if hit.type = arrowTag then
                    let el := withArrowBounds hit
                    DragState.arrow el.id wx wy (ex1 el) (ey1 el) (ex2 el) (ey2 el)
                  else
                    DragState.box hit.id (wx - hit.x) (wy - hit.y)
                { s with
                  dragState := some ds
                  isPanning := false
                  isDrawing := false
                  isErasing := false
                  resizeState := none
                  arrowEndpointState := none
                  selectedId := some hit.id }
            | none =>
                { s with
                  isPanning := true
                  isDrawing := false
                  isErasing := false
                  resizeState := none
                  dragState := none
                  arrowEndpointState := none
                  panStart := some ⟨clientX, clientY⟩
                  cameraStart := some camera }
  else s

/-- The ref effect of `handlePointerMove` in ToolBar.jsx: the move handler
only updates the external collections (strokes, elements, camera) through
`setStrokes`/`setElements`/`setCamera`; it never writes any of the
interaction refs, so its effect on the interaction state is the
identity. -/
def handlePointerMoveState (s : InteractionState) : InteractionState := s

/-- `handlePointerUpOrLeave` from ToolBar.jsx: unconditionally clear every
interaction ref back to idle. -/
def handlePointerUpOrLeave (s : InteractionState) : InteractionState :=
  { s with
    isPanning := false
    isDrawing := false
    isErasing := false
    currentStrokeId := none
    resizeState := none
    dragState := none
    arrowEndpointState := none }

/-- The interaction states reachable from the initial idle state through
the pointer handlers, with arbitrary modes, pointer types, element lists
and pointer positions. -/
inductive ReachableState : InteractionState → Prop
  | init : ReachableState initState
  | down (s : InteractionState) (mode pointerType : String) (elements : List Element)
      (wx wy : ℚ) (newStrokeId : String) (camera : Camera) (clientX clientY : ℚ) :
      ReachableState s →
      ReachableState (handlePointerDown mode pointerType elements wx wy newStrokeId
        camera clientX clientY s)
  | move (s : InteractionState) : ReachableState s →
      ReachableState (handlePointerMoveState s)
  | up (s : InteractionState) : ReachableState s →
      ReachableState (handlePointerUpOrLeave s)

/-- The number of simultaneously active interaction intents: panning,
drawing, erasing, element drag, resize, arrow-endpoint drag. -/
def intentCount (s : InteractionState) : ℕ :=
  (if s.isPanning then 1 else 0) + (if s.isDrawing then 1 else 0) +
  (if s.isErasing then 1 else 0) + (if s.dragState.isSome then 1 else 0) +
  (if s.resizeState.isSome then 1 else 0) +
  (if s.arrowEndpointState.isSome then 1 else 0)

/-- A concrete arrow element used to instantiate the arrow theorems:
endpoints (3, 4) and (1, 2), stale bounding box. -/
def demoArrow : Element :=
  { id := "a"
    type := arrowTag
    x := 0
    y := 0
    w := 0
    h := 0
    x1 := some 3
    y1 := some 4
    x2 := some 1
    y2 := some 2 }

/-- A concrete box used by the hit-resolution instances: the unit square
scaled to 10, at the origin. -/
def demoBoxA : Element := { id := "A", type := boxTag, x := 0, y := 0, w := 10, h := 10 }

/-- A concrete box overlapping `demoBoxA`, later in z-order. -/
def demoBoxB : Element := { id := "B", type := boxTag, x := 5, y := 5, w := 10, h := 10 }

/-- A degenerate box whose nine snap points all coincide at (0, 10). -/
def snapBoxA : Element := { id := "A", type := boxTag, x := 0, y := 10, w := 0, h := 0 }

/-- A degenerate box whose nine snap points all coincide at (10, 0), at the
same distance from the origin as `snapBoxA`'s. -/
def snapBoxB : Element := { id := "B", type := boxTag, x := 10, y := 0, w := 0, h := 0 }

/-- A concrete AI region: wide and flat, so the lane layout chooses the
horizontal orientation. -/
def demoRegion : Element :=
  { id := "r", type := "aiRegion", x := 0, y := 0, w := 2000, h := 400 }

/-- A concrete block operation with label Hello (term width 140). -/
def demoBlockOp1 : DrawOp := { op := addBlockTag, label := some ("Hello") }

/-- A second concrete block operation, same lane (the default lane 0). -/
def demoBlockOp2 : DrawOp := { op := addBlockTag, label := some ("World") }

/-- A concrete valid arrow operation between block indices 0 and 1. -/
def demoArrowOp : DrawOp := { op := addArrowTag, fromIdx := some 0, toIdx := some 1 }

/-- A concrete dangling arrow operation: index 5 is never placed. -/
def danglingArrowOp : DrawOp := { op := addArrowTag, fromIdx := some 0, toIdx := some 5 }

/-- A placed block of lane 0 at the origin, 100 by 100. -/
def laneBlockFrom : Element :=
  { id := "f"
    type := boxTag
    x := 0
    y := 0
    w := 100
    h := 100
    blockIndex := some 0
    lane := some 0 }

/-- A placed block of lane 0 whose leading edge sits exactly
`MIN_ARROW_GAP` after `laneBlockFrom`'s trailing edge, as the lane layout
produces for consecutive same-lane blocks. -/
def laneBlockTo : Element :=
  { id := "t"
    type := boxTag
    x := 200
    y := 0
    w := 100
    h := 100
    blockIndex := some 1
    lane := some 0 }

/-- Claim C1: for every finite screen point, camera with nonzero zoom and
viewport, `worldToScreen` and `screenToWorld` are exact mutual inverses
over exact arithmetic. -/
theorem screenToWorld_worldToScreen_round_trip (sx sy wx wy vw vh : ℚ)
    (camera : Camera) (hz : camera.zoom ≠ 0) :
    worldToScreen (screenToWorld sx sy camera vw vh).x
        (screenToWorld sx sy camera vw vh).y camera vw vh = ⟨sx, sy⟩ ∧
    screenToWorld (worldToScreen wx wy camera vw vh).x
        (worldToScreen wx wy camera vw vh).y camera vw vh = ⟨wx, wy⟩ := by
  constructor
  · show P2.mk _ _ = _
    simp only [screenToWorld, worldToScreen]
    congr 1 <;> (field_simp; try ring)
  · show P2.mk _ _ = _
    simp only [screenToWorld, worldToScreen]
    congr 1 <;> (field_simp; try ring)

/-- Concrete round-trip instance: camera at (3, 4) with zoom 2, viewport
800x600, screen point (5, 7) and world point (1, 2). -/
theorem screenToWorld_worldToScreen_round_trip_witness :
    worldToScreen (screenToWorld 5 7 ⟨3, 4, 2⟩ 800 600).x
        (screenToWorld 5 7 ⟨3, 4, 2⟩ 800 600).y ⟨3, 4, 2⟩ 800 600 = ⟨5, 7⟩ ∧
    screenToWorld (worldToScreen 1 2 ⟨3, 4, 2⟩ 800 600).x
        (worldToScreen 1 2 ⟨3, 4, 2⟩ 800 600).y ⟨3, 4, 2⟩ 800 600 = ⟨1, 2⟩ :=
  screenToWorld_worldToScreen_round_trip 5 7 1 2 800 600 ⟨3, 4, 2⟩ (by norm_num)

/-- Claim C3: the zoom-at-cursor update of `handleWheel` leaves the world
point under the cursor unchanged, for every camera, cursor position, wheel
direction and viewport, including when the clamp to `[MIN_ZOOM, MAX_ZOOM]`
is active (the cancellation holds for any clamped zoom value). -/
theorem handleWheel_zoom_anchor_invariance (prev : Camera)
    (mouseX mouseY deltaY vw vh : ℚ) :
    screenToWorld mouseX mouseY (handleWheel prev mouseX mouseY deltaY vw vh) vw vh
      = screenToWorld mouseX mouseY prev vw vh := by
  show P2.mk _ _ = _
  simp only [handleWheel, screenToWorld]
  congr 1 <;> ring

theorem max_sub_min_abs (a b : ℚ) : max a b - min a b = |b - a| := by
  rw [max_sub_min_eq_abs, abs_sub_comm]

theorem withArrowBounds_arrowBoundsInv (el : Element) :
    arrowBoundsInv (withArrowBounds el) := by
  by_cases ht : el.type = arrowTag
  · unfold arrowBoundsInv withArrowBounds
    rw [if_pos ht]
    intro _
    refine ⟨?_, ?_, ?_, ?_⟩ <;> simp [ex1, ex2, ey1, ey2, max_sub_min_abs]
  · unfold arrowBoundsInv withArrowBounds
    rw [if_neg ht]
    intro hc
    exact absurd hc ht

theorem dragArrowEndpointMove_inv (els : List Element) (id ep : String) (px py : ℚ)
    (h : ∀ e ∈ els, arrowBoundsInv e) :
    ∀ e ∈ dragArrowEndpointMove els id ep px py, arrowBoundsInv e := by
  intro e he
  simp only [dragArrowEndpointMove, List.mem_map] at he
  obtain ⟨a, ha, rfl⟩ := he
  by_cases hc : ¬ a.id = id ∨ ¬ a.type = arrowTag
  · rw [if_pos hc]
    exact h a ha
  · rw [if_neg hc]
    by_cases hep : ep = startTag
    · rw [if_pos hep]
      exact withArrowBounds_arrowBoundsInv _
    · rw [if_neg hep]
      exact withArrowBounds_arrowBoundsInv _

theorem dragArrowBodyMove_inv (els : List Element) (id : String)
    (a b c d e f g k : ℚ) (h : ∀ x ∈ els, arrowBoundsInv x) :
    ∀ x ∈ dragArrowBodyMove els id a b c d e f g k, arrowBoundsInv x := by
  intro x hx
  simp only [dragArrowBodyMove, List.mem_map] at hx
  obtain ⟨el, hel, rfl⟩ := hx
  by_cases hc : el.id = id
  · rw [if_pos hc]
    exact withArrowBounds_arrowBoundsInv _
  · rw [if_neg hc]
    exact h el hel

theorem placeArrowTemplate_inv (id : String) (wx wy tw : ℚ) :
    arrowBoundsInv (placeArrowTemplate id wx wy tw) := by
  unfold arrowBoundsInv placeArrowTemplate
  intro _
  refine ⟨?_, ?_, ?_, ?_⟩ <;> simp [ex1, ex2, ey1, ey2, max_sub_min_abs]

theorem buildArrowElement_inv (id : String) (fromEl toEl : Element)
    (orientation : String) : arrowBoundsInv (buildArrowElement id fromEl toEl orientation) := by
  unfold arrowBoundsInv buildArrowElement
  intro _
  refine ⟨?_, ?_, ?_, ?_⟩ <;> simp [ex1, ex2, ey1, ey2, max_sub_min_abs]

theorem buildArrowElementV1_inv (id : String) (fromEl toEl : Element)
    (orientation : String) :
    arrowBoundsInv (buildArrowElementV1 id fromEl toEl orientation) := by
  unfold arrowBoundsInv buildArrowElementV1
  intro _
  by_cases ho : orientation = verticalTag
  · rw [if_pos ho]
    refine ⟨?_, ?_, ?_, ?_⟩ <;> simp [ex1, ex2, ey1, ey2, max_sub_min_abs]
  · rw [if_neg ho]
    refine ⟨?_, ?_, ?_, ?_⟩ <;> simp [ex1, ex2, ey1, ey2, max_sub_min_abs]

/-- Claim C2: `withArrowBounds` recomputes `x, y, w, h` as the axis-aligned
bounding box of the endpoints (`x = min(x1,x2)`, `y = min(y1,y2)`,
`w = |x2-x1|`, `h = |y2-y1|`), leaves the endpoints and every other field
unchanged, and this normalization is applied by every operation that
mutates an arrow's endpoints — endpoint drag, body drag and both creation
paths — so the bounding-box invariant holds for every arrow after every
such mutation. -/
theorem arrow_bounding_box_normalization (el : Element) (h : el.type = arrowTag) :
    ((withArrowBounds el).x = min (ex1 el) (ex2 el)
      ∧ (withArrowBounds el).y = min (ey1 el) (ey2 el)
      ∧ (withArrowBounds el).w = |ex2 el - ex1 el|
      ∧ (withArrowBounds el).h = |ey2 el - ey1 el|
      ∧ (withArrowBounds el).x1 = some (ex1 el)
      ∧ (withArrowBounds el).y1 = some (ey1 el)
      ∧ (withArrowBounds el).x2 = some (ex2 el)
      ∧ (withArrowBounds el).y2 = some (ey2 el)
      ∧ (withArrowBounds el).id = el.id
      ∧ (withArrowBounds el).type = el.type
      ∧ (withArrowBounds el).label = el.label
      ∧ (withArrowBounds el).blockIndex = el.blockIndex
      ∧ (withArrowBounds el).lane = el.lane
      ∧ (withArrowBounds el).role = el.role)
    ∧ (∀ els id ep px py, (∀ e ∈ els, arrowBoundsInv e) →
        ∀ e ∈ dragArrowEndpointMove els id ep px py, arrowBoundsInv e)
    ∧ (∀ els id a b c d e f g k, (∀ x ∈ els, arrowBoundsInv x) →
        ∀ x ∈ dragArrowBodyMove els id a b c d e f g k, arrowBoundsInv x)
    ∧ (∀ id wx wy tw, arrowBoundsInv (placeArrowTemplate id wx wy tw))
    ∧ (∀ id f t o, arrowBoundsInv (buildArrowElement id f t o)) := by
  refine ⟨?_, dragArrowEndpointMove_inv, dragArrowBodyMove_inv,
    placeArrowTemplate_inv, buildArrowElement_inv⟩
  unfold withArrowBounds
  rw [if_pos h]
  refine ⟨?_, ?_, ?_, ?_, ?_, ?_, ?_, ?_, ?_, ?_, ?_, ?_, ?_, ?_⟩ <;>
    simp [max_sub_min_abs]

/-- Concrete instance of the bounding-box normalization at `demoArrow`
(endpoints (3, 4) and (1, 2)). -/
theorem arrow_bounding_box_normalization_witness :
    ((withArrowBounds demoArrow).x = min (ex1 demoArrow) (ex2 demoArrow)
      ∧ (withArrowBounds demoArrow).y = min (ey1 demoArrow) (ey2 demoArrow)
      ∧ (withArrowBounds demoArrow).w = |ex2 demoArrow - ex1 demoArrow|
      ∧ (withArrowBounds demoArrow).h = |ey2 demoArrow - ey1 demoArrow|
      ∧ (withArrowBounds demoArrow).x1 = some (ex1 demoArrow)
      ∧ (withArrowBounds demoArrow).y1 = some (ey1 demoArrow)
      ∧ (withArrowBounds demoArrow).x2 = some (ex2 demoArrow)
      ∧ (withArrowBounds demoArrow).y2 = some (ey2 demoArrow)
      ∧ (withArrowBounds demoArrow).id = demoArrow.id
      ∧ (withArrowBounds demoArrow).type = demoArrow.type
      ∧ (withArrowBounds demoArrow).label = demoArrow.label
      ∧ (withArrowBounds demoArrow).blockIndex = demoArrow.blockIndex
      ∧ (withArrowBounds demoArrow).lane = demoArrow.lane
      ∧ (withArrowBounds demoArrow).role = demoArrow.role)
    ∧ (∀ els id ep px py, (∀ e ∈ els, arrowBoundsInv e) →
        ∀ e ∈ dragArrowEndpointMove els id ep px py, arrowBoundsInv e)
    ∧ (∀ els id a b c d e f g k, (∀ x ∈ els, arrowBoundsInv x) →
        ∀ x ∈ dragArrowBodyMove els id a b c d e f g k, arrowBoundsInv x)
    ∧ (∀ id wx wy tw, arrowBoundsInv (placeArrowTemplate id wx wy tw))
    ∧ (∀ id f t o, arrowBoundsInv (buildArrowElement id f t o)) :=
  arrow_bounding_box_normalization demoArrow rfl

theorem pointToSegmentDist2_proj (px py x1 y1 x2 y2 : ℚ) :
    ∃ t : ℚ, 0 ≤ t ∧ t ≤ 1 ∧
      pointToSegmentDist2 px py x1 y1 x2 y2 =
        (px - (x1 + t * (x2 - x1))) * (px - (x1 + t * (x2 - x1))) +
        (py - (y1 + t * (y2 - y1))) * (py - (y1 + t * (y2 - y1))) := by
  unfold pointToSegmentDist2
  by_cases h : (x2 - x1) * (x2 - x1) + (y2 - y1) * (y2 - y1) = 0
  · refine ⟨0, le_refl 0, by norm_num, ?_⟩
    rw [if_pos h]
    ring
  · rw [if_neg h]
    exact ⟨max 0 (min 1 (((px - x1) * (x2 - x1) + (py - y1) * (y2 - y1)) /
        ((x2 - x1) * (x2 - x1) + (y2 - y1) * (y2 - y1)))),
      le_max_left _ _, max_le zero_le_one (min_le_left _ _), rfl⟩

theorem convex_comb_between (a b t : ℚ) (h0 : 0 ≤ t) (h1 : t ≤ 1) :
    min a b ≤ a + t * (b - a) ∧ a + t * (b - a) ≤ max a b := by
  rcases le_total a b with hab | hab
  · rw [min_eq_left hab, max_eq_right hab]
    constructor <;> nlinarith
  · rw [min_eq_right hab, max_eq_left hab]
    constructor <;> nlinarith

/-- Claim C10: for an arrow element, the two-phase hit test (bounding-box
fast reject with 8-unit margin, then squared point-to-segment distance
against the squared margin) is equivalent to the pure distance test: the
pre-filter never rejects a point whose distance from the segment is within
the margin. -/
theorem arrow_hit_two_phase_equiv (el : Element) (wx wy : ℚ)
    (h : el.type = arrowTag) :
    hitTestElement el wx wy = true ↔
      pointToSegmentDist2 wx wy (ex1 el) (ey1 el) (ex2 el) (ey2 el) ≤ 8 * 8 := by
  unfold hitTestElement
  rw [if_pos h]
  show (if _ < min (ex1 el) (ex2 el) - 8 ∨ _ ∨ _ ∨ _ then false else _) = true ↔ _
  split
  · rename_i hrej
    simp only [Bool.false_eq_true, false_iff, not_le]
    obtain ⟨t, ht0, ht1, hd⟩ :=
      pointToSegmentDist2_proj wx wy (ex1 el) (ey1 el) (ex2 el) (ey2 el)
    rw [hd]
    have hx := convex_comb_between (ex1 el) (ex2 el) t ht0 ht1
    have hy := convex_comb_between (ey1 el) (ey2 el) t ht0 ht1
    rcases hrej with h1 | h1 | h1 | h1
    · have hfar : wx - (ex1 el + t * (ex2 el - ex1 el)) < -8 := by
        have := hx.1
        linarith
      nlinarith [mul_self_nonneg (wy - (ey1 el + t * (ey2 el - ey1 el))), hfar]
    · have hfar : wx - (ex1 el + t * (ex2 el - ex1 el)) > 8 := by
        have := hx.2
        linarith
      nlinarith [mul_self_nonneg (wy - (ey1 el + t * (ey2 el - ey1 el))), hfar]
    · have hfar : wy - (ey1 el + t * (ey2 el - ey1 el)) < -8 := by
        have := hy.1
        linarith
      nlinarith [mul_self_nonneg (wx - (ex1 el + t * (ex2 el - ex1 el))), hfar]
    · have hfar : wy - (ey1 el + t * (ey2 el - ey1 el)) > 8 := by
        have := hy.2
        linarith
      nlinarith [mul_self_nonneg (wx - (ex1 el + t * (ex2 el - ex1 el))), hfar]
  · simp only [decide_eq_true_eq]

/-- Concrete instance of the two-phase equivalence at `demoArrow` and the
world point (2, 3). -/
theorem arrow_hit_two_phase_equiv_witness :
    hitTestElement demoArrow 2 3 = true ↔
      pointToSegmentDist2 2 3 (ex1 demoArrow) (ey1 demoArrow) (ex2 demoArrow)
        (ey2 demoArrow) ≤ 8 * 8 :=
  arrow_hit_two_phase_equiv demoArrow 2 3 rfl

theorem handlePointerDown_count (mode pointerType : String) (elements : List Element)
    (wx wy : ℚ) (newStrokeId : String) (camera : Camera) (clientX clientY : ℚ)
    (s : InteractionState) :
    intentCount (handlePointerDown mode pointerType elements wx wy newStrokeId
        camera clientX clientY s) ≤ 1 ∨
    handlePointerDown mode pointerType elements wx wy newStrokeId
        camera clientX clientY s = s := by
  unfold handlePointerDown
  by_cases h1 : mode = drawTag ∨ pointerType = penTag
  · rw [if_pos h1]
    left
    simp [intentCount]
  · rw [if_neg h1]
    by_cases h2 : mode = eraseTag
    · rw [if_pos h2]
      left
      simp [intentCount]
    · rw [if_neg h2]
      by_cases h3 : mode = panTag
      · rw [if_pos h3]
        cases hep : pointerDownEndpointHit
            (elements.find? fun el => decide (s.selectedId = some el.id)) wx wy with
        | some st =>
            simp only [hep]
            left
            simp [intentCount]
        | none =>
            simp only [hep]
            cases hrs : pointerDownResizeHit
                (elements.find? fun el => decide (s.selectedId = some el.id)) wx wy with
            | some st =>
                simp only [hrs]
                left
                simp [intentCount]
            | none =>
                simp only [hrs]
                cases hh : resolveHit elements wx wy with
                | some hit =>
                    simp only [hh]
                    left
                    simp [intentCount]
                | none =>
                    simp only [hh]
                    left
                    simp [intentCount]
      · rw [if_neg h3]
        right
        rfl

theorem reachable_intent_count (s : InteractionState)
    (h : ReachableState s) : intentCount s ≤ 1 := by
  induction h with
  | init => decide
  | down s mode pointerType elements wx wy newStrokeId camera clientX clientY _ ih =>
      rcases handlePointerDown_count mode pointerType elements wx wy newStrokeId
          camera clientX clientY s with hc | hc
      · exact hc
      · rw [hc]
        exact ih
  | move s _ ih => exact ih
  | up s _ _ =>
      simp [handlePointerUpOrLeave, intentCount]

/-- Claim C4: at every reachable instant of the interaction state machine,
at most one of the intents (panning, drawing, erasing, element drag,
resize, arrow-endpoint drag) is active — every pointer-down branch that
activates one intent clears all the others — and pointer-up or
pointer-leave clears every intent back to idle regardless of which was
active. -/
theorem interaction_intent_mutual_exclusion (s : InteractionState)
    (h : ReachableState s) :
    intentCount s ≤ 1 ∧ intentCount (handlePointerUpOrLeave s) = 0 := by
  refine ⟨reachable_intent_count s h, ?_⟩
  simp [handlePointerUpOrLeave, intentCount]

/-- Concrete instance of intent mutual exclusion: the state reached by one
pointer-down in draw mode from the initial state. -/
theorem interaction_intent_mutual_exclusion_witness :
    intentCount (handlePointerDown drawTag drawTag [] 0 0 emptyStr ⟨0, 0, 1⟩ 0 0
        initState) ≤ 1 ∧
    intentCount (handlePointerUpOrLeave
      (handlePointerDown drawTag drawTag [] 0 0 emptyStr ⟨0, 0, 1⟩ 0 0
        initState)) = 0 :=
  interaction_intent_mutual_exclusion _
    (ReachableState.down initState drawTag drawTag [] 0 0 emptyStr ⟨0, 0, 1⟩ 0 0
      ReachableState.init)

theorem find?_append_decomp {α : Type} (p : α → Bool) (l : List α) (a : α)
    (ha : a ∈ l) (hp : p a = true) :
    ∃ c l1 l2, l.find? p = some c ∧ p c = true ∧ l = l1 ++ c :: l2 ∧
      ∀ e ∈ l1, p e = false := by
  induction l with
  | nil => cases ha
  | cons x xs ih =>
      by_cases hx : p x = true
      · exact ⟨x, [], xs, by rw [List.find?_cons_of_pos _ hx], hx, rfl, by simp⟩
      · have hx' : p x = false := by simpa using hx
        have ha' : a ∈ xs := by
          rcases List.mem_cons.mp ha with rfl | hm
          · rw [hp] at hx'
            cases hx'
          · exact hm
        obtain ⟨c, l1, l2, hf, hc, heq, hl1⟩ := ih ha'
        refine ⟨c, x :: l1, l2, ?_, hc, ?_, ?_⟩
        · rw [List.find?_cons_of_neg _ hx]
          exact hf
        · rw [heq]
          rfl
        · intro e he
          rcases List.mem_cons.mp he with rfl | hm
          · exact hx'
          · exact hl1 e hm

/-- Claim C5: hit resolution scans elements from the last in the array
(topmost in z-order) to the first and returns the first element whose hit
test succeeds: whenever some element `b` of the list is hit, the scan
returns a hit element `c`, every element after `c` in the array fails the
hit test, and `c` is `b` or comes after it — so of two overlapping
elements both containing the point, the later one is resolved. -/
theorem hit_resolution_top_down (xs zs : List Element) (b : Element) (wx wy : ℚ)
    (hb : hitTestElement b wx wy = true) :
    ∃ c l1 l2,
      resolveHit (xs ++ b :: zs) wx wy = some c ∧
      hitTestElement c wx wy = true ∧
      xs ++ b :: zs = l1 ++ c :: l2 ∧
      (∀ e ∈ l2, hitTestElement e wx wy = false) ∧
      c ∈ b :: zs := by
  set p : Element → Bool := fun el => hitTestElement el wx wy with hp
  have hmem : b ∈ (xs ++ b :: zs).reverse := by simp
  obtain ⟨c, r1, r2, hf, hc, heq, hr1⟩ := find?_append_decomp p _ b hmem hb
  have hsplit : (xs ++ b :: zs).reverse = (zs.reverse ++ [b]) ++ xs.reverse := by
    simp
  have hex : ∃ x, x ∈ zs.reverse ++ [b] ∧ p x = true := ⟨b, by simp, hb⟩
  obtain ⟨c₂, hc₂⟩ : ∃ c₂, (zs.reverse ++ [b]).find? p = some c₂ := by
    rcases ho : (zs.reverse ++ [b]).find? p with _ | c₂
    · obtain ⟨x, hx, hpx⟩ := hex
      have := List.find?_eq_none.mp ho x hx
      rw [hpx] at this
      cases this rfl
    · exact ⟨c₂, rfl⟩
  have hf₂ : (xs ++ b :: zs).reverse.find? p = some c₂ := by
    rw [hsplit, List.find?_append, hc₂]
    rfl
  have hcc : c = c₂ := by
    rw [hf] at hf₂
    exact Option.some.inj hf₂
  refine ⟨c, r2.reverse, r1.reverse, hf, hc, ?_, ?_, ?_⟩
  · conv_lhs => rw [← List.reverse_reverse (xs ++ b :: zs)]
    rw [heq]
    simp
  · intro e he
    exact hr1 e (List.mem_reverse.mp he)
  · have hcmem : c₂ ∈ zs.reverse ++ [b] := List.mem_of_find?_eq_some hc₂
    rw [hcc]
    rcases List.mem_append.mp hcmem with hm | hm
    · exact List.mem_cons_of_mem b (List.mem_reverse.mp hm)
    · rcases List.mem_singleton.mp hm with rfl
      exact List.mem_cons_self _ _

/-- Concrete instance of top-down hit resolution: two overlapping 10x10
boxes, point (7, 7) in the overlap, resolved among the topmost suffix. -/
theorem hit_resolution_top_down_witness :
    ∃ c l1 l2,
      resolveHit ([demoBoxA] ++ demoBoxB :: []) 7 7 = some c ∧
      hitTestElement c 7 7 = true ∧
      [demoBoxA] ++ demoBoxB :: [] = l1 ++ c :: l2 ∧
      (∀ e ∈ l2, hitTestElement e 7 7 = false) ∧
      c ∈ demoBoxB :: [] :=
  hit_resolution_top_down [demoBoxA] [] demoBoxB 7 7 (by
    simp [hitTestElement, demoBoxA, demoBoxB, boxTag, arrowTag]
    norm_num)

/-- Claim C9: an `add_arrow` operation whose `from`/`to` fields are not
numbers or reference no placed block produces no arrow element (and, the
resolution being a total function, raises no error), and removing it from
a batch leaves the arrows of every other operation intact: dangling
references are dropped individually, never failing the batch. -/
theorem dangling_arrow_dropped (l1 l2 : List DrawOp) (blocks : List Element)
    (orientation : String) (op : DrawOp)
    (h : op.fromIdx = none ∨ op.toIdx = none ∨
      (∀ f t, op.fromIdx = some f → op.toIdx = some t →
        findBlockByIndex blocks f = none ∨ findBlockByIndex blocks t = none)) :
    resolveArrowOp blocks orientation op = none ∧
    resolveArrows (l1 ++ op :: l2) blocks orientation =
      resolveArrows l1 blocks orientation ++ resolveArrows l2 blocks orientation ∧
    ∀ good ∈ l1 ++ l2, ∀ a, resolveArrowOp blocks orientation good = some a →
      a ∈ resolveArrows (l1 ++ op :: l2) blocks orientation := by
  have hnone : resolveArrowOp blocks orientation op = none := by
    unfold resolveArrowOp
    rcases hf : op.fromIdx with _ | f
    · rfl
    · rcases ht : op.toIdx with _ | t
      · rfl
      · rcases h with h | h | h
        · rw [hf] at h
          cases h
        · rw [ht] at h
          cases h
        · rcases h f t hf ht with hbf | hbt
          · simp [hbf]
          · rcases hff : findBlockByIndex blocks f with _ | a <;> simp [hbt, hff]
  refine ⟨hnone, ?_, ?_⟩
  · unfold resolveArrows
    rw [List.filterMap_append, List.filterMap_cons, hnone]
  · intro good hg a ha
    unfold resolveArrows
    rw [List.mem_filterMap]
    refine ⟨good, ?_, ha⟩
    rcases List.mem_append.mp hg with hm | hm
    · exact List.mem_append_left _ hm
    · exact List.mem_append_right _ (List.mem_cons_of_mem _ hm)

/-- Concrete instance of dangling-arrow dropping: two placed blocks with
indices 0 and 1, one dangling arrow (to index 5) dropped, while a valid
arrow (0 to 1) elsewhere in the batch is still produced. -/
theorem dangling_arrow_dropped_witness :
    resolveArrowOp [laneBlockFrom, laneBlockTo] horizontalTag danglingArrowOp = none ∧
    resolveArrows ([demoArrowOp] ++ danglingArrowOp :: []) [laneBlockFrom, laneBlockTo]
        horizontalTag =
      resolveArrows [demoArrowOp] [laneBlockFrom, laneBlockTo] horizontalTag ++
      resolveArrows [] [laneBlockFrom, laneBlockTo] horizontalTag ∧
    ∀ good ∈ [demoArrowOp] ++ ([] : List DrawOp), ∀ a,
      resolveArrowOp [laneBlockFrom, laneBlockTo] horizontalTag good = some a →
      a ∈ resolveArrows ([demoArrowOp] ++ danglingArrowOp :: [])
        [laneBlockFrom, laneBlockTo] horizontalTag :=
  dangling_arrow_dropped [demoArrowOp] [] [laneBlockFrom, laneBlockTo] horizontalTag
    danglingArrowOp
    (Or.inr (Or.inr (by
      intro f t hf ht
      have ht5 : (5 : ℚ) = t := Option.some.inj ht
      right
      rw [← ht5]
      decide)))

theorem snapGo_spec (wx wy : ℚ) (l : List P2) :
    ∀ (b0 : Option P2) (bd0 : ℚ),
      (∃ l1 p l2, l = l1 ++ p :: l2 ∧
          snapGo wx wy l (b0, bd0) = (some p, dist2To wx wy p) ∧
          dist2To wx wy p ≤ bd0 ∧
          (∀ q ∈ l1, dist2To wx wy p ≤ dist2To wx wy q) ∧
          (∀ q ∈ l2, dist2To wx wy p < dist2To wx wy q)) ∨
      (snapGo wx wy l (b0, bd0) = (b0, bd0) ∧
        ∀ q ∈ l, bd0 < dist2To wx wy q) := by
  induction l with
  | nil =>
      intro b0 bd0
      right
      exact ⟨rfl, by simp⟩
  | cons p ps ih =>
      intro b0 bd0
      by_cases hp : dist2To wx wy p ≤ bd0
      · have hgo : snapGo wx wy (p :: ps) (b0, bd0) =
            snapGo wx wy ps (some p, dist2To wx wy p) := by
          simp [snapGo, hp]
        rcases ih (some p) (dist2To wx wy p) with
          ⟨l1, c, l2, heq, hres, hle, hbefore, hafter⟩ | ⟨hres, hall⟩
        · left
          refine ⟨p :: l1, c, l2, by rw [heq, List.cons_append], by rw [hgo]; exact hres,
            le_trans hle hp, ?_, hafter⟩
          intro q hq
          rcases List.mem_cons.mp hq with rfl | hm
          · exact hle
          · exact hbefore q hm
        · left
          exact ⟨[], p, ps, rfl, by rw [hgo]; exact hres, hp, by simp, hall⟩
      · have hgo : snapGo wx wy (p :: ps) (b0, bd0) = snapGo wx wy ps (b0, bd0) := by
          simp [snapGo, hp]
        rcases ih b0 bd0 with
          ⟨l1, c, l2, heq, hres, hle, hbefore, hafter⟩ | ⟨hres, hall⟩
        · left
          refine ⟨p :: l1, c, l2, by rw [heq, List.cons_append], by rw [hgo]; exact hres,
            hle, ?_, hafter⟩
          intro q hq
          rcases List.mem_cons.mp hq with rfl | hm
          · exact le_of_lt (lt_of_le_of_lt hle (lt_of_not_le hp))
          · exact hbefore q hm
        · right
          refine ⟨by rw [hgo]; exact hres, ?_⟩
          intro q hq
          rcases List.mem_cons.mp hq with rfl | hm
          · exact lt_of_not_le hp
          · exact hall q hm

/-- Claim C6 (amended): `snapPointToBoxes` returns the unmodified input
point when no candidate anchor of the non-arrow, non-self elements lies
within the threshold; otherwise it returns a closest candidate anchor
within the threshold, with ties broken by the last-found anchor in
iteration order (every earlier candidate is no closer, every later
candidate is strictly farther). -/
theorem snapPointToBoxes_closest_last (wx wy : ℚ) (elements : List Element)
    (selfId : String) (threshold : ℚ) :
    ((∀ q ∈ snapCandidates elements selfId,
        threshold * threshold < dist2To wx wy q) →
      snapPointToBoxes wx wy elements selfId threshold = ⟨wx, wy⟩) ∧
    ((∃ q ∈ snapCandidates elements selfId,
        dist2To wx wy q ≤ threshold * threshold) →
      ∃ l1 p l2, snapCandidates elements selfId = l1 ++ p :: l2 ∧
        snapPointToBoxes wx wy elements selfId threshold = p ∧
        dist2To wx wy p ≤ threshold * threshold ∧
        (∀ q ∈ l1, dist2To wx wy p ≤ dist2To wx wy q) ∧
        (∀ q ∈ l2, dist2To wx wy p < dist2To wx wy q)) := by
  constructor
  · intro hall
    unfold snapPointToBoxes
    rcases snapGo_spec wx wy (snapCandidates elements selfId) none
        (threshold * threshold) with ⟨l1, p, l2, heq, hres, hle, _, _⟩ | ⟨hres, _⟩
    · exfalso
      have hmem : p ∈ snapCandidates elements selfId := by
        rw [heq]
        simp
      exact absurd hle (not_le.mpr (hall p hmem))
    · rw [hres]
  · rintro ⟨q0, hq0mem, hq0⟩
    unfold snapPointToBoxes
    rcases snapGo_spec wx wy (snapCandidates elements selfId) none
        (threshold * threshold) with
      ⟨l1, p, l2, heq, hres, hle, hbef, haft⟩ | ⟨hres, hall⟩
    · exact ⟨l1, p, l2, heq, by rw [hres], hle, hbef, haft⟩
    · exact absurd hq0 (not_le.mpr (hall q0 hq0mem))

theorem snapCandidates_demo :
    snapCandidates [snapBoxA, snapBoxB] emptyStr =
      [⟨0, 10⟩, ⟨0, 10⟩, ⟨0, 10⟩, ⟨0, 10⟩, ⟨0, 10⟩, ⟨0, 10⟩, ⟨0, 10⟩, ⟨0, 10⟩, ⟨0, 10⟩,
       ⟨10, 0⟩, ⟨10, 0⟩, ⟨10, 0⟩, ⟨10, 0⟩, ⟨10, 0⟩, ⟨10, 0⟩, ⟨10, 0⟩, ⟨10, 0⟩, ⟨10, 0⟩] := by
  simp [snapCandidates, snapBoxA, snapBoxB, getBoxSnapPoints, boxTag, arrowTag, emptyStr]

theorem snapPointToBoxes_demo :
    snapPointToBoxes 0 0 [snapBoxA, snapBoxB] emptyStr 20 = ⟨10, 0⟩ := by
  unfold snapPointToBoxes
  rw [snapCandidates_demo]
  norm_num [snapGo, dist2To]

/-- Concrete instance of the amended snap characterization: with the two
degenerate boxes there is a candidate within the threshold, and the result
is a closest candidate that is last among the minimizers. -/
theorem snapPointToBoxes_closest_last_witness :
    ∃ l1 p l2, snapCandidates [snapBoxA, snapBoxB] emptyStr = l1 ++ p :: l2 ∧
      snapPointToBoxes 0 0 [snapBoxA, snapBoxB] emptyStr 20 = p ∧
      dist2To 0 0 p ≤ 20 * 20 ∧
      (∀ q ∈ l1, dist2To 0 0 p ≤ dist2To 0 0 q) ∧
      (∀ q ∈ l2, dist2To 0 0 p < dist2To 0 0 q) :=
  (snapPointToBoxes_closest_last 0 0 [snapBoxA, snapBoxB] emptyStr 20).2
    ⟨⟨0, 10⟩, by rw [snapCandidates_demo]; simp, by norm_num [dist2To]⟩

/-- Counterexample to claim C6 as stated: at the origin, the first-found
closest anchor within the threshold is `snapBoxA`'s (0, 10) — it is the
very first candidate and no candidate is closer — yet `snapPointToBoxes`
returns `snapBoxB`'s (10, 0): on a tie the last-found anchor wins, not the
first-found. -/
theorem snap_first_found_tie_counterexample :
    (snapCandidates [snapBoxA, snapBoxB] emptyStr).head? = some ⟨0, 10⟩ ∧
    dist2To 0 0 ⟨0, 10⟩ = dist2To 0 0 ⟨10, 0⟩ ∧
    dist2To 0 0 ⟨0, 10⟩ ≤ 20 * 20 ∧
    (∀ q ∈ snapCandidates [snapBoxA, snapBoxB] emptyStr,
      dist2To 0 0 ⟨0, 10⟩ ≤ dist2To 0 0 q) ∧
    snapPointToBoxes 0 0 [snapBoxA, snapBoxB] emptyStr 20 = ⟨10, 0⟩ ∧
    (⟨10, 0⟩ : P2) ≠ (⟨0, 10⟩ : P2) := by
  refine ⟨?_, ?_, ?_, ?_, ?_, ?_⟩
  · rw [snapCandidates_demo]
    rfl
  · norm_num [dist2To]
  · norm_num [dist2To]
  · intro q hq
    rw [snapCandidates_demo] at hq
    simp at hq
    rcases hq with h | h <;> subst h <;> norm_num [dist2To]
  · exact snapPointToBoxes_demo
  · intro h
    have hx := congrArg P2.x h
    norm_num at hx

theorem estimateBlockSize_w_ge (label : Option String) (blockType : String)
    (region : Element) : 140 ≤ (estimateBlockSize label blockType region).1 := by
  unfold estimateBlockSize
  exact le_max_left _ _

theorem prepareBlocks_w_nonneg (blockOps : List DrawOp) (region : Element) :
    ∀ b ∈ prepareBlocks blockOps region, 0 ≤ b.w := by
  intro b hb
  simp only [prepareBlocks, List.mem_map] at hb
  obtain ⟨ip, _, rfl⟩ := hb
  have h := estimateBlockSize_w_ge ip.2.label
    (if ip.2.blockType = some textTag then textTag else paragraphTag) region
  dsimp only
  linarith

theorem placeLaneH_lane (blocks : List Prep) (x cy k : ℚ)
    (h : ∀ b ∈ blocks, b.lane = k) :
    ∀ p ∈ placeLaneH blocks x cy, p.lane = k := by
  induction blocks generalizing x with
  | nil =>
      intro p hp
      cases hp
  | cons b bs ih =>
      intro p hp
      rcases List.mem_cons.mp hp with rfl | hm
      · exact h b (List.mem_cons_self _ _)
      · exact ih _ (fun b' hb' => h b' (List.mem_cons_of_mem _ hb')) p hm

theorem placeLaneV_lane (blocks : List Prep) (y cx k : ℚ)
    (h : ∀ b ∈ blocks, b.lane = k) :
    ∀ p ∈ placeLaneV blocks y cx, p.lane = k := by
  induction blocks generalizing y with
  | nil =>
      intro p hp
      cases hp
  | cons b bs ih =>
      intro p hp
      rcases List.mem_cons.mp hp with rfl | hm
      · exact h b (List.mem_cons_self _ _)
      · exact ih _ (fun b' hb' => h b' (List.mem_cons_of_mem _ hb')) p hm

theorem placeLaneH_x_ge (blocks : List Prep) (x cy : ℚ)
    (hw : ∀ b ∈ blocks, 0 ≤ b.w) :
    ∀ p ∈ placeLaneH blocks x cy, x ≤ p.x := by
  induction blocks generalizing x with
  | nil =>
      intro p hp
      cases hp
  | cons b bs ih =>
      intro p hp
      rcases List.mem_cons.mp hp with rfl | hm
      · exact le_refl _
      · have hb := hw b (List.mem_cons_self _ _)
        have := ih (x + b.w + MIN_ARROW_GAP)
          (fun b' hb' => hw b' (List.mem_cons_of_mem _ hb')) p hm
        have hgap : (0 : ℚ) < MIN_ARROW_GAP := by norm_num [MIN_ARROW_GAP]
        linarith

theorem placeLaneV_y_ge (blocks : List Prep) (y cx : ℚ)
    (hh : ∀ b ∈ blocks, 0 ≤ b.h) :
    ∀ p ∈ placeLaneV blocks y cx, y ≤ p.y := by
  induction blocks generalizing y with
  | nil =>
      intro p hp
      cases hp
  | cons b bs ih =>
      intro p hp
      rcases List.mem_cons.mp hp with rfl | hm
      · exact le_refl _
      · have hb := hh b (List.mem_cons_self _ _)
        have := ih (y + b.h + MIN_ARROW_GAP)
          (fun b' hb' => hh b' (List.mem_cons_of_mem _ hb')) p hm
        have hgap : (0 : ℚ) < MIN_ARROW_GAP := by norm_num [MIN_ARROW_GAP]
        linarith

theorem placeLaneH_chain (blocks : List Prep) (x cy : ℚ) :
    List.Chain' (fun a b => b.x = a.x + a.w + MIN_ARROW_GAP)
      (placeLaneH blocks x cy) := by
  induction blocks generalizing x with
  | nil => exact List.chain'_nil
  | cons b bs ih =>
      cases bs with
      | nil => exact List.chain'_singleton _
      | cons b' bs' =>
          rw [placeLaneH, placeLaneH]
          refine List.Chain'.cons rfl ?_
          rw [← placeLaneH]
          exact ih _

theorem placeLaneV_chain (blocks : List Prep) (y cx : ℚ) :
    List.Chain' (fun a b => b.y = a.y + a.h + MIN_ARROW_GAP)
      (placeLaneV blocks y cx) := by
  induction blocks generalizing y with
  | nil => exact List.chain'_nil
  | cons b bs ih =>
      cases bs with
      | nil => exact List.chain'_singleton _
      | cons b' bs' =>
          rw [placeLaneV, placeLaneV]
          refine List.Chain'.cons rfl ?_
          rw [← placeLaneV]
          exact ih _

theorem placeLaneH_pairwise (blocks : List Prep) (x cy : ℚ)
    (hw : ∀ b ∈ blocks, 0 ≤ b.w) :
    List.Pairwise (fun a b => a.x + a.w + MIN_ARROW_GAP ≤ b.x)
      (placeLaneH blocks x cy) := by
  induction blocks generalizing x with
  | nil => exact List.Pairwise.nil
  | cons b bs ih =>
      rw [placeLaneH]
      refine List.Pairwise.cons ?_ (ih _ fun b' hb' => hw b' (List.mem_cons_of_mem _ hb'))
      intro p hp
      exact placeLaneH_x_ge bs (x + b.w + MIN_ARROW_GAP) cy
        (fun b' hb' => hw b' (List.mem_cons_of_mem _ hb')) p hp

theorem placeLaneV_pairwise (blocks : List Prep) (y cx : ℚ)
    (hh : ∀ b ∈ blocks, 0 ≤ b.h) :
    List.Pairwise (fun a b => a.y + a.h + MIN_ARROW_GAP ≤ b.y)
      (placeLaneV blocks y cx) := by
  induction blocks generalizing y with
  | nil => exact List.Pairwise.nil
  | cons b bs ih =>
      rw [placeLaneV]
      refine List.Pairwise.cons ?_ (ih _ fun b' hb' => hh b' (List.mem_cons_of_mem _ hb'))
      intro p hp
      exact placeLaneV_y_ge bs (y + b.h + MIN_ARROW_GAP) cx
        (fun b' hb' => hh b' (List.mem_cons_of_mem _ hb')) p hp

theorem filter_flatMap_lane (keyed : List (ℕ × ℚ)) (f : ℕ × ℚ → List Placement)
    (k : ℚ) (hhom : ∀ ik ∈ keyed, ∀ p ∈ f ik, p.lane = ik.2) :
    (keyed.flatMap f).filter (fun p => decide (p.lane = k)) =
      (keyed.filter fun ik => decide (ik.2 = k)).flatMap f := by
  induction keyed with
  | nil => rfl
  | cons ik rest ih =>
      rw [List.flatMap_cons, List.filter_append, List.filter_cons]
      have hrest := ih fun ik' h' p hp => hhom ik' (List.mem_cons_of_mem _ h') p hp
      by_cases hk : ik.2 = k
      · have h1 : (f ik).filter (fun p => decide (p.lane = k)) = f ik := by
          rw [List.filter_eq_self]
          intro p hp
          simp [hhom ik (List.mem_cons_self _ _) p hp, hk]
        rw [h1, if_pos (by simp [hk]), List.flatMap_cons, hrest]
      · have h1 : (f ik).filter (fun p => decide (p.lane = k)) = [] := by
          rw [List.filter_eq_nil_iff]
          intro p hp
          simp [hhom ik (List.mem_cons_self _ _) p hp, hk]
        rw [h1, if_neg (by simp [hk]), hrest, List.nil_append]

theorem filter_snd_nodup {l : List (ℕ × ℚ)} (hnd : (l.map Prod.snd).Nodup) (k : ℚ) :
    l.filter (fun ik => decide (ik.2 = k)) = [] ∨
    ∃ ik, l.filter (fun ik => decide (ik.2 = k)) = [ik] := by
  induction l with
  | nil =>
      left
      rfl
  | cons a rest ih =>
      rw [List.map_cons] at hnd
      have hnotin := (List.nodup_cons.mp hnd).1
      have hnd' := (List.nodup_cons.mp hnd).2
      rw [List.filter_cons]
      by_cases hk : a.2 = k
      · rw [if_pos (by simp [hk])]
        have hrest : rest.filter (fun ik => decide (ik.2 = k)) = [] := by
          rw [List.filter_eq_nil_iff]
          intro ik hik
          simp only [decide_eq_true_eq]
          intro hik2
          apply hnotin
          rw [hk, ← hik2]
          exact List.mem_map_of_mem Prod.snd hik
        rw [hrest]
        right
        exact ⟨a, rfl⟩
      · rw [if_neg (by simp [hk])]
        exact ih hnd'

theorem laneKeys_enum_snd_nodup (prepared : List Prep) :
    ((laneKeys prepared).enum.map Prod.snd).Nodup := by
  rw [List.enum_map_snd]
  unfold laneKeys
  apply List.Nodup.filter
  apply List.Nodup.map
  · exact fun a b h => Nat.cast_injective h
  · exact List.nodup_range 17

theorem base_line_height_nonneg (L : ℤ) (bh lh : ℚ) (hL : 1 ≤ L) (hbh : 0 ≤ bh)
    (hlh : 0 ≤ lh) : 0 ≤ bh + ((L : ℚ) - 1) * lh := by
  have h1 : (1 : ℚ) ≤ (L : ℚ) := by exact_mod_cast hL
  nlinarith

theorem estimateBlockSize_h_nonneg (label : Option String) (blockType : String)
    (region : Element) : 0 ≤ (estimateBlockSize label blockType region).2 := by
  unfold estimateBlockSize
  dsimp only
  by_cases hb : blockType = textTag
  · simp only [hb, if_true, if_pos rfl]
    exact base_line_height_nonneg _ _ _ (le_max_left _ _) (by norm_num) (by norm_num)
  · simp only [if_neg hb]
    exact base_line_height_nonneg _ _ _ (le_max_left _ _) (by norm_num) (by norm_num)

theorem prepareBlocks_h_nonneg (blockOps : List DrawOp) (region : Element) :
    ∀ b ∈ prepareBlocks blockOps region, 0 ≤ b.h := by
  intro b hb
  simp only [prepareBlocks, List.mem_map] at hb
  obtain ⟨ip, _, rfl⟩ := hb
  have h := estimateBlockSize_h_nonneg ip.2.label
    (if ip.2.blockType = some textTag then textTag else paragraphTag) region
  dsimp only
  linarith

/-- Claim C7: within every lane, `layoutBlocksInRegion` (lane version)
separates consecutive placements along the primary layout axis by exactly
`MIN_ARROW_GAP` between the trailing edge of the earlier block and the
leading edge of the next — hence by at least the configured minimum gap,
for every adjacent pair regardless of block sizes — and consequently no
two same-lane placements overlap along that axis (pairwise, the trailing
edge plus the gap is at most the later block's leading edge). -/
theorem layout_same_lane_min_gap (blockOps : List DrawOp) (region : Element) (k : ℚ) :
    ((layoutBlocksInRegion blockOps region).2 = horizontalTag →
      List.Chain' (fun a b => b.x = a.x + a.w + MIN_ARROW_GAP)
        (((layoutBlocksInRegion blockOps region).1).filter fun p =>
          decide (p.lane = k)) ∧
      List.Pairwise (fun a b => a.x + a.w + MIN_ARROW_GAP ≤ b.x)
        (((layoutBlocksInRegion blockOps region).1).filter fun p =>
          decide (p.lane = k))) ∧
    ((layoutBlocksInRegion blockOps region).2 = verticalTag →
      List.Chain' (fun a b => b.y = a.y + a.h + MIN_ARROW_GAP)
        (((layoutBlocksInRegion blockOps region).1).filter fun p =>
          decide (p.lane = k)) ∧
      List.Pairwise (fun a b => a.y + a.h + MIN_ARROW_GAP ≤ b.y)
        (((layoutBlocksInRegion blockOps region).1).filter fun p =>
          decide (p.lane = k))) := by
  by_cases hemp : blockOps.isEmpty = true
  · have heq : layoutBlocksInRegion blockOps region = ([], horizontalTag) := by
      simp only [layoutBlocksInRegion, hemp, if_true]
    rw [heq]
    constructor
    · intro _
      simp
    · intro hv
      exact absurd hv (by decide)
  · have hne : blockOps.isEmpty = false := by simpa using hemp
    by_cases hasp :
        (region.w - SIDE_PADDING * 2) / max 1 (region.h - SIDE_PADDING * 2) ≥ 1
    · have heq : layoutBlocksInRegion blockOps region =
          ((laneKeys (prepareBlocks blockOps region)).enum.flatMap fun ik =>
            placeLaneH
              ((prepareBlocks blockOps region).filter fun b => decide (b.lane = ik.2))
              (region.x + SIDE_PADDING)
              (region.y + SIDE_PADDING +
                (if 1 < (laneKeys (prepareBlocks blockOps region)).length then
                    max 1 (region.h - SIDE_PADDING * 2) /
                      (((laneKeys (prepareBlocks blockOps region)).length : ℚ) - 1)
                  else 0) * (ik.1 : ℚ)),
           horizontalTag) := by
        simp only [layoutBlocksInRegion, hne, Bool.false_eq_true, if_false, hasp,
          if_true]
      rw [heq]
      dsimp only
      constructor
      · intro _
        have hhom : ∀ ik ∈ (laneKeys (prepareBlocks blockOps region)).enum,
            ∀ p ∈ placeLaneH
              ((prepareBlocks blockOps region).filter fun b => decide (b.lane = ik.2))
              (region.x + SIDE_PADDING)
              (region.y + SIDE_PADDING +
                (if 1 < (laneKeys (prepareBlocks blockOps region)).length then
                    max 1 (region.h - SIDE_PADDING * 2) /
                      (((laneKeys (prepareBlocks blockOps region)).length : ℚ) - 1)
                  else 0) * (ik.1 : ℚ)), p.lane = ik.2 := by
          intro ik _ p hp
          refine placeLaneH_lane _ _ _ _ ?_ p hp
          intro b hb
          exact of_decide_eq_true (List.mem_filter.mp hb).2
        rw [filter_flatMap_lane _ _ k hhom]
        rcases filter_snd_nodup
            (laneKeys_enum_snd_nodup (prepareBlocks blockOps region)) k with
          hnil | ⟨ik, hone⟩
        · rw [hnil]
          simp
        · rw [hone]
          simp only [List.flatMap_cons, List.flatMap_nil, List.append_nil]
          refine ⟨placeLaneH_chain _ _ _, placeLaneH_pairwise _ _ _ ?_⟩
          intro b hb
          exact prepareBlocks_w_nonneg blockOps region b (List.mem_filter.mp hb).1
      · intro hv
        exact absurd hv (by decide)
    · have heq : layoutBlocksInRegion blockOps region =
          ((laneKeys (prepareBlocks blockOps region)).enum.flatMap fun ik =>
            placeLaneV
              ((prepareBlocks blockOps region).filter fun b => decide (b.lane = ik.2))
              (region.y + SIDE_PADDING)
              (region.x + SIDE_PADDING +
                (if 1 < (laneKeys (prepareBlocks blockOps region)).length then
                    max 1 (region.w - SIDE_PADDING * 2) /
                      (((laneKeys (prepareBlocks blockOps region)).length : ℚ) - 1)
                  else 0) * (ik.1 : ℚ)),
           verticalTag) := by
        simp only [layoutBlocksInRegion, hne, Bool.false_eq_true, if_false, hasp,
          if_false]
      rw [heq]
      dsimp only
      constructor
      · intro hv
        exact absurd hv (by decide)
      · intro _
        have hhom : ∀ ik ∈ (laneKeys (prepareBlocks blockOps region)).enum,
            ∀ p ∈ placeLaneV
              ((prepareBlocks blockOps region).filter fun b => decide (b.lane = ik.2))
              (region.y + SIDE_PADDING)
              (region.x + SIDE_PADDING +
                (if 1 < (laneKeys (prepareBlocks blockOps region)).length then
                    max 1 (region.w - SIDE_PADDING * 2) /
                      (((laneKeys (prepareBlocks blockOps region)).length : ℚ) - 1)
                  else 0) * (ik.1 : ℚ)), p.lane = ik.2 := by
          intro ik _ p hp
          refine placeLaneV_lane _ _ _ _ ?_ p hp
          intro b hb
          exact of_decide_eq_true (List.mem_filter.mp hb).2
        rw [filter_flatMap_lane _ _ k hhom]
        rcases filter_snd_nodup
            (laneKeys_enum_snd_nodup (prepareBlocks blockOps region)) k with
          hnil | ⟨ik, hone⟩
        · rw [hnil]
          simp
        · rw [hone]
          simp only [List.flatMap_cons, List.flatMap_nil, List.append_nil]
          refine ⟨placeLaneV_chain _ _ _, placeLaneV_pairwise _ _ _ ?_⟩
          intro b hb
          exact prepareBlocks_h_nonneg blockOps region b (List.mem_filter.mp hb).1

/-- Concrete instance of the same-lane layout gap: two default-lane blocks
in the wide demo region (horizontal orientation), lane 0. -/
theorem layout_same_lane_min_gap_witness :
    List.Chain' (fun a b => b.x = a.x + a.w + MIN_ARROW_GAP)
      (((layoutBlocksInRegion [demoBlockOp1, demoBlockOp2] demoRegion).1).filter
        fun p => decide (p.lane = 0)) ∧
    List.Pairwise (fun a b => a.x + a.w + MIN_ARROW_GAP ≤ b.x)
      (((layoutBlocksInRegion [demoBlockOp1, demoBlockOp2] demoRegion).1).filter
        fun p => decide (p.lane = 0)) :=
  (layout_same_lane_min_gap [demoBlockOp1, demoBlockOp2] demoRegion 0).1 (by
    have hne : ([demoBlockOp1, demoBlockOp2].isEmpty) = false := rfl
    have hasp : (demoRegion.w - SIDE_PADDING * 2) /
        max 1 (demoRegion.h - SIDE_PADDING * 2) ≥ 1 := by
      norm_num [demoRegion, SIDE_PADDING, max_def]
    simp only [layoutBlocksInRegion, hne, Bool.false_eq_true, if_false, hasp,
      if_true])

/-- Counterexample to claim C8 as stated: `laneBlockFrom` and `laneBlockTo`
are same-lane placed blocks whose facing edges are exactly the layout gap
`MIN_ARROW_GAP` apart (the adjacent-placement case produced by the lane
layout), yet the arrow the lane-version `buildArrowElement` resolves
between them is 68 units long — strictly shorter than `MIN_ARROW_GAP`: its
endpoints are inset 16 units into the gap from the facing edges, and no
minimum-length pull-apart is applied. -/
theorem same_lane_arrow_min_gap_counterexample :
    laneBlockFrom.lane = laneBlockTo.lane ∧
    laneBlockTo.x - (laneBlockFrom.x + laneBlockFrom.w) = MIN_ARROW_GAP ∧
    ex1 (buildArrowElement emptyStr laneBlockFrom laneBlockTo horizontalTag) = 116 ∧
    ex2 (buildArrowElement emptyStr laneBlockFrom laneBlockTo horizontalTag) = 184 ∧
    |ex2 (buildArrowElement emptyStr laneBlockFrom laneBlockTo horizontalTag) -
        ex1 (buildArrowElement emptyStr laneBlockFrom laneBlockTo horizontalTag)| <
      MIN_ARROW_GAP := by
  refine ⟨rfl, ?_, ?_, ?_, ?_⟩
  · norm_num [laneBlockFrom, laneBlockTo, MIN_ARROW_GAP]
  · simp [buildArrowElement, laneBlockFrom, laneBlockTo, ex1, horizontalTag]
    norm_num
  · simp [buildArrowElement, laneBlockFrom, laneBlockTo, ex2, horizontalTag]
    norm_num
  · simp [buildArrowElement, laneBlockFrom, laneBlockTo, ex1, ex2, horizontalTag,
      MIN_ARROW_GAP]
    norm_num

/-- Claim C8 (amended): for a same-lane pair, the lane-version
`buildArrowElement` builds the arrow along the layout axis from 16 units
past the source block's trailing edge to 16 units before the target
block's leading edge, centered on the perpendicular axis at the mean of
the two block centers, with `x, y, w, h` the endpoint bounding box; its
length is the facing-edge gap minus 32 and no minimum-length padding is
applied. -/
theorem buildArrowElement_same_lane_spec (id : String) (fromEl toEl : Element)
    (kq : ℚ) (hf : fromEl.lane = some kq) (ht : toEl.lane = some kq) :
    (ex1 (buildArrowElement id fromEl toEl horizontalTag) =
        fromEl.x + fromEl.w + 16 ∧
      ex2 (buildArrowElement id fromEl toEl horizontalTag) = toEl.x - 16 ∧
      ey1 (buildArrowElement id fromEl toEl horizontalTag) =
        ((fromEl.y + fromEl.h / 2) + (toEl.y + toEl.h / 2)) / 2 ∧
      ey2 (buildArrowElement id fromEl toEl horizontalTag) =
        ((fromEl.y + fromEl.h / 2) + (toEl.y + toEl.h / 2)) / 2 ∧
      (buildArrowElement id fromEl toEl horizontalTag).type = arrowTag ∧
      arrowBoundsInv (buildArrowElement id fromEl toEl horizontalTag)) ∧
    (ey1 (buildArrowElement id fromEl toEl verticalTag) =
        fromEl.y + fromEl.h + 16 ∧
      ey2 (buildArrowElement id fromEl toEl verticalTag) = toEl.y - 16 ∧
      ex1 (buildArrowElement id fromEl toEl verticalTag) =
        ((fromEl.x + fromEl.w / 2) + (toEl.x + toEl.w / 2)) / 2 ∧
      ex2 (buildArrowElement id fromEl toEl verticalTag) =
        ((fromEl.x + fromEl.w / 2) + (toEl.x + toEl.w / 2)) / 2 ∧
      (buildArrowElement id fromEl toEl verticalTag).type = arrowTag ∧
      arrowBoundsInv (buildArrowElement id fromEl toEl verticalTag)) := by
  constructor
  · refine ⟨?_, ?_, ?_, ?_, ?_, buildArrowElement_inv id fromEl toEl horizontalTag⟩ <;>
      simp [buildArrowElement, hf, ht, ex1, ex2, ey1, ey2]
  · refine ⟨?_, ?_, ?_, ?_, ?_, buildArrowElement_inv id fromEl toEl verticalTag⟩ <;>
      simp [buildArrowElement, hf, ht, ex1, ex2, ey1, ey2, horizontalTag, verticalTag]

/-- Concrete instance of the amended same-lane arrow characterization at
the two lane-0 demo blocks. -/
theorem buildArrowElement_same_lane_spec_witness :
    (ex1 (buildArrowElement emptyStr laneBlockFrom laneBlockTo horizontalTag) =
        laneBlockFrom.x + laneBlockFrom.w + 16 ∧
      ex2 (buildArrowElement emptyStr laneBlockFrom laneBlockTo horizontalTag) =
        laneBlockTo.x - 16 ∧
      ey1 (buildArrowElement emptyStr laneBlockFrom laneBlockTo horizontalTag) =
        ((laneBlockFrom.y + laneBlockFrom.h / 2) + (laneBlockTo.y + laneBlockTo.h / 2)) / 2 ∧
      ey2 (buildArrowElement emptyStr laneBlockFrom laneBlockTo horizontalTag) =
        ((laneBlockFrom.y + laneBlockFrom.h / 2) + (laneBlockTo.y + laneBlockTo.h / 2)) / 2 ∧
      (buildArrowElement emptyStr laneBlockFrom laneBlockTo horizontalTag).type = arrowTag ∧
      arrowBoundsInv (buildArrowElement emptyStr laneBlockFrom laneBlockTo horizontalTag)) ∧
    (ey1 (buildArrowElement emptyStr laneBlockFrom laneBlockTo verticalTag) =
        laneBlockFrom.y + laneBlockFrom.h + 16 ∧
      ey2 (buildArrowElement emptyStr laneBlockFrom laneBlockTo verticalTag) =
        laneBlockTo.y - 16 ∧
      ex1 (buildArrowElement emptyStr laneBlockFrom laneBlockTo verticalTag) =
        ((laneBlockFrom.x + laneBlockFrom.w / 2) + (laneBlockTo.x + laneBlockTo.w / 2)) / 2 ∧
      ex2 (buildArrowElement emptyStr laneBlockFrom laneBlockTo verticalTag) =
        ((laneBlockFrom.x + laneBlockFrom.w / 2) + (laneBlockTo.x + laneBlockTo.w / 2)) / 2 ∧
      (buildArrowElement emptyStr laneBlockFrom laneBlockTo verticalTag).type = arrowTag ∧
      arrowBoundsInv (buildArrowElement emptyStr laneBlockFrom laneBlockTo verticalTag)) :=
  buildArrowElement_same_lane_spec emptyStr laneBlockFrom laneBlockTo 0 rfl rfl

end Notely
